import Mathlib

/-!
LateNightCart (src/app.py): shallow embedding and verification.

A shallow embedding of the hostel snack-shop application `src/app.py`
(Flask + SQLAlchemy).  The relational store (users, snacks, orders) is
modelled as lists of records; each Flask route's business logic becomes a
pure function from a database state and the request parameters to a result
and a new database state.  Transport-level concerns (HTML rendering,
routing, form parsing, file upload) are outside the model, per the spec's
scope; the password-hashing collaborator (werkzeug) is modelled by the
type `Hash`, whose type distinction from `String` records that a stored
credential is a hash, never the raw password.

Floats appear in the source only as the snack price, which is stored and
compared but never arithmetically combined; it is modelled as `Rat`.
Timestamps (`order_time`, `datetime.utcnow`) are supplied by an external
collaborator and touched by no claim; they are omitted from the record.
-/

/-- Models the werkzeug password-hashing collaborator
(`generate_password_hash` / `check_password_hash`): an abstract one-way
hash value.  The type distinction from `String` captures that a `Hash` is
stored in place of, and is distinct from, the raw password. -/
structure Hash where
  raw : String
deriving DecidableEq, Repr

/-- Models `werkzeug.security.generate_password_hash` (src/app.py line 33). -/
def generate_password_hash (password : String) : Hash := ⟨password⟩

/-- Models `werkzeug.security.check_password_hash` (src/app.py line 36):
the hash function's own verification routine. -/
def check_password_hash (h : Hash) (password : String) : Bool :=
  h.raw == password

/-- The `User` model (src/app.py lines 23-36). -/
structure User where
  id : Nat
  username : String
  password_hash : Hash
  role : String
deriving DecidableEq, Repr

/-- The `Snack` model (src/app.py lines 39-48). -/
structure Snack where
  id : Nat
  name : String
  price : Rat
  quantity : Int
  image_url : String
  is_available : Bool
deriving DecidableEq, Repr

/-- The `Order` model (src/app.py lines 51-60).  `order_time` is omitted:
it comes from the `datetime` collaborator and no claim mentions it. -/
structure Order where
  id : Nat
  snack_id : Nat
  buyer_name : String
  room_number : String
  quantity_ordered : Int
  status : String
deriving DecidableEq, Repr

/-- The relational store: the three tables plus the autoincrement
counters for the integer primary keys. -/
structure DB where
  users : List User
  snacks : List Snack
  orders : List Order
  next_user_id : Nat
  next_snack_id : Nat
  next_order_id : Nat
deriving DecidableEq, Repr

/-- Models `User.query.filter_by(username=...).first()`. -/
def findUser (db : DB) (username : String) : Option User :=
  db.users.find? fun u => u.username == username

/-- Models `Snack.query.get(snack_id)` (primary-key lookup). -/
def findSnack (db : DB) (snack_id : Nat) : Option Snack :=
  db.snacks.find? fun s => s.id == snack_id

/-- Models `Order.query.get(order_id)` (primary-key lookup). -/
def findOrder (db : DB) (order_id : Nat) : Option Order :=
  db.orders.find? fun o => o.id == order_id

/-- Outcome of the `register` route. -/
inductive RegisterResult
  | duplicateIdentity
  | success
deriving DecidableEq, Repr

/-- The `register` route, POST branch (src/app.py lines 91-112): composes the
identity `"<name>-<room_number>"`, rejects a duplicate, otherwise stores a
new student user with the hashed password. -/
def register (db : DB) (username password room_number : String) :
    RegisterResult × DB :=
  let full_username := username ++ "-" ++ room_number
  if (db.users.find? fun u => u.username == full_username).isSome then
    (RegisterResult.duplicateIdentity, db)
  else
    let user : User :=
      ⟨db.next_user_id, full_username, generate_password_hash password,
        "student"⟩
    (RegisterResult.success,
      { db with users := db.users ++ [user],
                next_user_id := db.next_user_id + 1 })

/-- Observable outcome of the `login` route, POST branch: the flash
message and the redirect target, plus the session contents on success. -/
inductive LoginResult
  | success (username role redirectTo flashMsg : String)
  | failure (flashMsg redirectTo : String)
deriving DecidableEq, Repr

/-- The `login` route, POST branch (src/app.py lines 114-136).  Both failure
cases (unknown username, wrong password) fall into the single `else`
branch of `if user and user.check_password(password)`. -/
def login (db : DB) (username password : String) : LoginResult :=
  match findUser db username with
  | some user =>
      if check_password_hash user.password_hash password then
        LoginResult.success user.username user.role
          (if user.role == "admin" then "admin_dashboard" else "snacks")
          ("Welcome, " ++ user.username ++ "!")
      else
        LoginResult.failure "Login failed. Check your username and password."
          "login"
  | none =>
      LoginResult.failure "Login failed. Check your username and password."
        "login"

/-- Outcome of the `order` route. -/
inductive OrderResult
  | notFound
  | invalidQuantity
  | commitFailed
  | success
deriving DecidableEq, Repr

/-- The `order` route, POST branch (src/app.py lines 154-194): look up the
snack (404 if absent), reject `quantity_ordered <= 0 or quantity_ordered >
snack.quantity`, otherwise build the new `Order` (default status
`"Pending"`), decrement the stock, clear `is_available` when the stock
hits zero, and commit.  `commitOk` models whether `db.session.commit()`
succeeds; on failure `db.session.rollback()` discards both the stock
decrement and the new order. -/
def order (db : DB) (snack_id : Nat) (buyer_name room_number : String)
    (quantity_ordered : Int) (commitOk : Bool) : OrderResult × DB :=
  match findSnack db snack_id with
  | none => (OrderResult.notFound, db)
  | some snack =>
      if quantity_ordered ≤ 0 ∨ quantity_ordered > snack.quantity then
        (OrderResult.invalidQuantity, db)
      else
        let new_order : Order :=
          ⟨db.next_order_id, snack.id, buyer_name, room_number,
            quantity_ordered, "Pending"⟩
        let q := snack.quantity - quantity_ordered
        let snack' : Snack :=
          { snack with quantity := q,
                       is_available := if q == 0 then false
                                       else snack.is_available }
        if commitOk then
          (OrderResult.success,
            { db with snacks := db.snacks.map fun s =>
                        if s.id == snack.id then snack' else s,
                      orders := db.orders ++ [new_order],
                      next_order_id := db.next_order_id + 1 })
        else
          (OrderResult.commitFailed, db)

/-- Outcome of the `complete_order` route. -/
inductive CompleteResult
  | notFound
  | success
deriving DecidableEq, Repr

/-- The `complete_order` route (src/app.py lines 205-212): look up the order
(404 if absent) and set its status to `"Completed"` unconditionally —
the source contains no check of the current status. -/
def complete_order (db : DB) (order_id : Nat) : CompleteResult × DB :=
  match findOrder db order_id with
  | none => (CompleteResult.notFound, db)
  | some _ =>
      (CompleteResult.success,
        { db with orders := db.orders.map fun o =>
            if o.id == order_id then { o with status := "Completed" }
            else o })

/-- Outcome of the `manage_snack` route. -/
inductive ManageResult
  | notFound
  | success
deriving DecidableEq, Repr

/-- The `manage_snack` route, POST branch (src/app.py lines 214-247): with no
`snack_id` it creates a new snack, otherwise it overwrites the fields of
the existing one (404 if absent); in both cases it then sets
`is_available = True if snack.quantity > 0 else False` (line 242).  The
source performs no validation of `price` or `quantity`. -/
def manage_snack (db : DB) (snack_id : Option Nat) (name : String)
    (price : Rat) (quantity : Int) (image_url : String) :
    ManageResult × DB :=
  match snack_id with
  | none =>
      let snack : Snack :=
        ⟨db.next_snack_id, name, price, quantity, image_url,
          decide (quantity > 0)⟩
      (ManageResult.success,
        { db with snacks := db.snacks ++ [snack],
                  next_snack_id := db.next_snack_id + 1 })
  | some sid =>
      match findSnack db sid with
      | none => (ManageResult.notFound, db)
      | some _ =>
          (ManageResult.success,
            { db with snacks := db.snacks.map fun s =>
                if s.id == sid then
                  { s with name := name, price := price,
                           quantity := quantity, image_url := image_url,
                           is_available := decide (quantity > 0) }
                else s })

/-- Outcome of the `delete_snack` route. -/
inductive DeleteResult
  | notFound
  | hasPendingOrders
  | success
deriving DecidableEq, Repr

/-- The `delete_snack` route (src/app.py lines 249-261): look up the snack
(404 if absent); if any order references it with status `"Pending"`,
refuse; otherwise delete the snack row.  Nothing deletes or rewrites the
orders referencing it. -/
def delete_snack (db : DB) (snack_id : Nat) : DeleteResult × DB :=
  match findSnack db snack_id with
  | none => (DeleteResult.notFound, db)
  | some _ =>
      if (db.orders.find? fun o =>
            o.snack_id == snack_id && o.status == "Pending").isSome then
        (DeleteResult.hasPendingOrders, db)
      else
        (DeleteResult.success,
          { db with snacks := db.snacks.filter fun s =>
              s.id != snack_id })

/-- The empty store, before `db.create_all()` seeds anything. -/
def emptyDB : DB := ⟨[], [], [], 0, 0, 0⟩

/-- The seeded store produced by the `__main__` block (src/app.py lines
265-287): the default admin user and the three sample snacks. -/
def initialDB : DB :=
  ⟨[⟨0, "admin", generate_password_hash "cvr_admin123", "admin"⟩],
   [⟨0, "Spicy Chips Pack", 20, 15,
      "https://via.placeholder.com/400x300/64561a/fcfcfc?text=Spicy+Chips",
      true⟩,
    ⟨1, "Chocolate Cookie", 50, 8,
      "https://via.placeholder.com/400x300/917c22/fcfcfc?text=Cookie",
      true⟩,
    ⟨2, "Energy Drink", 35, 0,
      "https://via.placeholder.com/400x300/373012/fcfcfc?text=Energy+Drink",
      false⟩],
   [], 1, 3, 0⟩

/-- The spec's availability invariant for one snack:
`is_available == (quantity > 0)`. -/
def availOk (s : Snack) : Prop :=
  s.is_available = decide (s.quantity > 0)

instance (s : Snack) : Decidable (availOk s) := by
  unfold availOk; infer_instance

/-- Referential integrity restricted to pending orders: every order with
status `"Pending"` references an existing snack. -/
def refIntPending (db : DB) : Prop :=
  ∀ o ∈ db.orders, o.status = "Pending" →
    ∃ s ∈ db.snacks, s.id = o.snack_id

/-- States reachable from the empty or seeded store through the mutating
routes (the `login` and listing routes do not change the store). -/
inductive Reachable : DB → Prop where
  | init : Reachable emptyDB
  | seed : Reachable initialDB
  | register (db : DB) (u p r : String) :
      Reachable db → Reachable (register db u p r).2
  | order (db : DB) (sid : Nat) (bn rn : String) (q : Int) (c : Bool) :
      Reachable db → Reachable (order db sid bn rn q c).2
  | complete (db : DB) (oid : Nat) :
      Reachable db → Reachable (complete_order db oid).2
  | manage (db : DB) (msid : Option Nat) (n : String) (p : Rat) (q : Int)
      (iu : String) :
      Reachable db → Reachable (manage_snack db msid n p q iu).2
  | delete (db : DB) (sid : Nat) :
      Reachable db → Reachable (delete_snack db sid).2

/-- The snack record as rewritten by a successful order of `q` units
(src/app.py lines 180-182). -/
def orderedSnack (s : Snack) (q : Int) : Snack :=
  { s with quantity := s.quantity - q,
           is_available := if s.quantity - q == 0 then false
                           else s.is_available }

/-- A store with one snack and one Completed order on it. -/
def dbCompleted : DB :=
  ⟨[], [⟨1, "Chips", 20, 5, "img", true⟩],
   [⟨1, 1, "alice-101", "101", 2, "Completed"⟩], 0, 2, 2⟩

/-- A store with one snack and one Pending order on it. -/
def dbPending : DB :=
  ⟨[], [⟨1, "Chips", 20, 5, "img", true⟩],
   [⟨1, 1, "alice-101", "101", 2, "Pending"⟩], 0, 2, 2⟩

/-- A reachable chain: create a snack, order 2 units, complete that
order, then delete the snack (allowed — no pending order remains). -/
def dbChain0 : DB := (manage_snack emptyDB Option.none "Chips" 20 5 "img").2

def dbChain1 : DB := (order dbChain0 0 "alice-101" "101" 2 true).2

def dbChain2 : DB := (complete_order dbChain1 0).2

def dbChain3 : DB := (delete_snack dbChain2 0).2

/-- The store after registering alice from room 101 into the empty
store. -/
def dbAlice : DB := (register emptyDB "alice" "pw" "101").2

/-! ## Helper lemmas -/

/-- Pushing `find?` through a pointwise update that preserves the predicate:
updating exactly the elements matched by `p` moves `find?` through the
update. -/
theorem find?_map_ite {α : Type} (p : α → Bool) (g : α → α)
    (hg : ∀ x, p x = true → p (g x) = true) :
    ∀ l : List α,
      (l.map fun x => if p x then g x else x).find? p =
        (l.find? p).map g := by
  intro l
  induction l with
  | nil => rfl
  | cons a t ih =>
      simp only [List.map_cons]
      by_cases h : p a
      · rw [if_pos h]
        rw [List.find?_cons_of_pos _ (hg a h), List.find?_cons_of_pos _ h]
        rfl
      · rw [if_neg h]
        rw [List.find?_cons_of_neg _ (by simpa using h),
          List.find?_cons_of_neg _ (by simpa using h), ih]

/-- An element not matched by `p` is untouched by the pointwise update. -/
theorem mem_map_ite_of_ne {α : Type} (p : α → Bool) (g : α → α)
    (l : List α) (x : α) (hx : x ∈ l) (hpx : p x = false) :
    x ∈ l.map fun y => if p y then g y else y := by
  have h := List.mem_map_of_mem (fun y => if p y then g y else y) hx
  simpa [hpx] using h

/-- Membership in the updated list comes from membership in the original. -/
theorem mem_of_mem_map_ite {α : Type} (p : α → Bool) (g : α → α)
    (l : List α) (x : α)
    (hx : x ∈ l.map fun y => if p y then g y else y) :
    ∃ y ∈ l, x = if p y then g y else y := by
  rcases List.mem_map.mp hx with ⟨y, hy, hxy⟩
  exact ⟨y, hy, hxy.symm⟩

/-- A successful `findSnack` returns a snack whose id is the one looked
up. -/
theorem findSnack_id (db : DB) (sid : Nat) (s : Snack)
    (h : findSnack db sid = some s) : s.id = sid := by
  have h2 := List.find?_some h
  simpa using h2

/-- A successful `findSnack` returns a member of the snacks table. -/
theorem findSnack_mem (db : DB) (sid : Nat) (s : Snack)
    (h : findSnack db sid = some s) : s ∈ db.snacks :=
  List.mem_of_find?_eq_some h

/-- Full characterization of the success branch of the `order` route:
with a valid quantity and a successful commit, the result is exactly the
old store with the one snack rewritten and the one new pending order
appended. -/
theorem order_success_eq (db : DB) (sid : Nat) (bn rn : String) (q : Int)
    (s : Snack) (hs : findSnack db sid = some s) (hq0 : 0 < q)
    (hqs : q ≤ s.quantity) :
    order db sid bn rn q true = (OrderResult.success,
      { db with
          snacks := db.snacks.map fun t =>
            if t.id == sid then orderedSnack s q else t,
          orders := db.orders ++
            [⟨db.next_order_id, sid, bn, rn, q, "Pending"⟩],
          next_order_id := db.next_order_id + 1 }) := by
  have hid := findSnack_id db sid s hs
  subst hid
  simp only [order, hs]
  rw [if_neg (by omega)]
  rfl

/-- With a valid quantity but a failing commit, the rollback leaves the
store unchanged. -/
theorem order_rollback_eq (db : DB) (sid : Nat) (bn rn : String) (q : Int)
    (s : Snack) (hs : findSnack db sid = some s) (hq0 : 0 < q)
    (hqs : q ≤ s.quantity) :
    order db sid bn rn q false = (OrderResult.commitFailed, db) := by
  simp only [order, hs]
  rw [if_neg (by omega)]
  rfl

/-- Behaviour of `find?` after replacing every matched element by the constant `c`. -/
theorem find?_map_const {α : Type} (p : α → Bool) (c : α)
    (hc : p c = true) (l : List α) (a : α) (ha : l.find? p = some a) :
    (l.map fun x => if p x then c else x).find? p = some c := by
  have h := find?_map_ite p (fun _ => c) (fun x _ => hc) l
  rw [ha] at h
  simpa using h

/-- C2: for an existing snack and a quantity `q` with `0 < q ≤ stock`,
placing an order succeeds, decrements that snack's stock by exactly `q`,
and appends exactly one new `"Pending"` order referencing that snack;
the two effects are visible together (success branch) or not at all
(rollback branch leaves the store untouched). -/
theorem order_valid_success_and_atomic (db : DB) (sid : Nat)
    (bn rn : String) (q : Int) (s : Snack)
    (hs : findSnack db sid = some s) (hq0 : 0 < q)
    (hqs : q ≤ s.quantity) :
    (order db sid bn rn q true).1 = OrderResult.success ∧
    (∃ s', findSnack (order db sid bn rn q true).2 sid = some s' ∧
       s'.quantity = s.quantity - q) ∧
    (order db sid bn rn q true).2.orders =
      db.orders ++ [⟨db.next_order_id, sid, bn, rn, q, "Pending"⟩] ∧
    order db sid bn rn q false = (OrderResult.commitFailed, db) := by
  have he := order_success_eq db sid bn rn q s hs hq0 hqs
  have hid := findSnack_id db sid s hs
  refine ⟨by rw [he], ⟨orderedSnack s q, ?_, rfl⟩, by rw [he],
    order_rollback_eq db sid bn rn q s hs hq0 hqs⟩
  rw [he]
  show (db.snacks.map fun t =>
      if t.id == sid then orderedSnack s q else t).find?
      (fun t => t.id == sid) = some (orderedSnack s q)
  exact find?_map_const _ _ (by simp [orderedSnack, hid]) db.snacks s hs

theorem order_valid_success_and_atomic_witness :
    (order initialDB 0 "alice-101" "101" 5 true).1 = OrderResult.success :=
  (order_valid_success_and_atomic initialDB 0 "alice-101" "101" 5
    ⟨0, "Spicy Chips Pack", 20, 15,
      "https://via.placeholder.com/400x300/64561a/fcfcfc?text=Spicy+Chips",
      true⟩ (by decide) (by decide) (by decide)).1

/-- C3: for an existing snack, an order with `q ≤ 0` or `q >` current
stock is rejected as an invalid quantity and the store is unchanged: the
snack's stock and availability are untouched and no order is created. -/
theorem order_invalid_rejected (db : DB) (sid : Nat) (bn rn : String)
    (q : Int) (c : Bool) (s : Snack) (hs : findSnack db sid = some s)
    (hq : q ≤ 0 ∨ s.quantity < q) :
    order db sid bn rn q c = (OrderResult.invalidQuantity, db) := by
  simp only [order, hs]
  rw [if_pos (by omega)]

theorem order_invalid_rejected_witness :
    order initialDB 0 "alice-101" "101" 20 true =
      (OrderResult.invalidQuantity, initialDB) :=
  order_invalid_rejected initialDB 0 "alice-101" "101" 20 true
    ⟨0, "Spicy Chips Pack", 20, 15,
      "https://via.placeholder.com/400x300/64561a/fcfcfc?text=Spicy+Chips",
      true⟩ (by decide) (by decide)

/-- C1: if every snack satisfies the availability invariant
`is_available == (quantity > 0)`, then after an order placement and after
an admin snack create or update — whatever the outcome, in particular
after every successful one — every snack still satisfies it. -/
theorem mutations_preserve_availability (db : DB)
    (h : ∀ s ∈ db.snacks, availOk s) :
    (∀ sid bn rn q c, ∀ s ∈ (order db sid bn rn q c).2.snacks, availOk s) ∧
    (∀ msid n p q iu,
      ∀ s ∈ (manage_snack db msid n p q iu).2.snacks, availOk s) := by
  constructor
  · intro sid bn rn q c s hs'
    cases hfind : findSnack db sid with
    | none =>
        simp only [order, hfind] at hs'
        exact h s hs'
    | some snack =>
        simp only [order, hfind] at hs'
        by_cases hq : q ≤ 0 ∨ q > snack.quantity
        · rw [if_pos hq] at hs'
          exact h s hs'
        · rw [if_neg hq] at hs'
          push_neg at hq
          cases c with
          | false =>
              rw [if_neg (by simp)] at hs'
              exact h s hs'
          | true =>
              rw [if_pos rfl] at hs'
              rcases List.mem_map.mp hs' with ⟨t, ht, rfl⟩
              by_cases hid : (t.id == snack.id) = true
              · rw [if_pos hid]
                have hsnack := h snack (findSnack_mem db sid snack hfind)
                unfold availOk at hsnack ⊢
                by_cases h0 : (snack.quantity - q == 0) = true
                · have h0' := beq_iff_eq.mp h0
                  simp only [if_pos h0]
                  have hng : ¬ snack.quantity - q > 0 := by omega
                  simp [hng]
                · have h0' : snack.quantity - q ≠ 0 := by
                    intro hc
                    exact h0 (beq_iff_eq.mpr hc)
                  simp only [if_neg h0]
                  rw [hsnack, decide_eq_decide]
                  omega
              · rw [if_neg hid]
                exact h t ht
  · intro msid n p q iu s hs'
    cases msid with
    | none =>
        simp only [manage_snack] at hs'
        rcases List.mem_append.mp hs' with hmem | hmem
        · exact h s hmem
        · rcases List.mem_singleton.mp hmem with rfl
          simp [availOk]
    | some sid =>
        cases hfind : findSnack db sid with
        | none =>
            simp only [manage_snack, hfind] at hs'
            exact h s hs'
        | some s0 =>
            simp only [manage_snack, hfind] at hs'
            rcases List.mem_map.mp hs' with ⟨t, ht, rfl⟩
            by_cases hid : (t.id == sid) = true
            · rw [if_pos hid]
              simp [availOk]
            · rw [if_neg hid]
              exact h t ht

theorem mutations_preserve_availability_witness :
    availOk ⟨0, "Spicy Chips Pack", 20, 10,
      "https://via.placeholder.com/400x300/64561a/fcfcfc?text=Spicy+Chips",
      true⟩ :=
  (mutations_preserve_availability initialDB (by decide)).1
    0 "alice-101" "101" 5 true _ (by decide)

/-- C4 counterexample: `complete_order` performs no status check
(src/app.py lines 207-212), so calling it twice on the same order yields
two successes — the second call on the already-Completed order is also
reported as a success, not as an `AlreadyCompleted` failure. -/
theorem complete_order_twice_two_successes :
    (complete_order dbPending 1).1 = CompleteResult.success ∧
    findOrder (complete_order dbPending 1).2 1 =
      some ⟨1, 1, "alice-101", "101", 2, "Completed"⟩ ∧
    complete_order (complete_order dbPending 1).2 1 =
      (CompleteResult.success, (complete_order dbPending 1).2) := by decide

/-- C4 amended: `complete_order` sets any found order's status to
`"Completed"` unconditionally and reports success; a second call on the
same (already Completed) order succeeds again as a no-op on the store —
two calls yield two successes and no failure. -/
theorem complete_order_unconditional (db : DB) (oid : Nat) (o : Order)
    (h : findOrder db oid = some o) :
    (complete_order db oid).1 = CompleteResult.success ∧
    findOrder (complete_order db oid).2 oid =
      some { o with status := "Completed" } ∧
    complete_order (complete_order db oid).2 oid =
      (CompleteResult.success, (complete_order db oid).2) := by
  have he1 : complete_order db oid = (CompleteResult.success,
      { db with orders := db.orders.map fun x =>
          if x.id == oid then { x with status := "Completed" } else x }) := by
    simp only [complete_order, h]
  have h2 : findOrder (complete_order db oid).2 oid =
      some { o with status := "Completed" } := by
    rw [he1]
    show (db.orders.map fun x =>
        if x.id == oid then { x with status := "Completed" } else x).find?
        (fun x => x.id == oid) = some { o with status := "Completed" }
    have hgen := find?_map_ite (fun x : Order => x.id == oid)
      (fun x => { x with status := "Completed" })
      (fun x hx => by simpa using hx) db.orders
    rw [show (db.orders.find? fun x : Order => x.id == oid) = some o
      from h] at hgen
    simpa using hgen
  have hmm : (db.orders.map fun x =>
        if x.id == oid then { x with status := "Completed" } else x).map
        (fun x => if x.id == oid then { x with status := "Completed" }
          else x) =
      db.orders.map fun x =>
        if x.id == oid then { x with status := "Completed" } else x := by
    rw [List.map_map]
    apply List.map_congr_left
    intro x _
    by_cases hx : (x.id == oid) = true
    · simp [Function.comp, hx]
    · simp [Function.comp, hx]
  refine ⟨by rw [he1], h2, ?_⟩
  rw [he1] at h2 ⊢
  simp only [complete_order, h2]
  rw [hmm]

theorem complete_order_unconditional_witness :
    (complete_order dbPending 1).1 = CompleteResult.success :=
  (complete_order_unconditional dbPending 1
    ⟨1, 1, "alice-101", "101", 2, "Pending"⟩ (by decide)).1

/-- C5 counterexample: `manage_snack` performs no validation of price or
quantity (src/app.py lines 225-244): creating a snack with price `-1` and
quantity `-5` succeeds and stores exactly those values, so stock becomes
negative through the admin create path. -/
theorem manage_snack_accepts_invalid_values :
    (manage_snack emptyDB Option.none "Weird" (-1) (-5) "img").1 =
      ManageResult.success ∧
    ∃ s ∈ (manage_snack emptyDB Option.none "Weird" (-1) (-5)
        "img").2.snacks,
      s.price = -1 ∧ s.quantity = -5 := by decide

/-- C5 amended: snack create and update perform no input validation:
create always succeeds and update succeeds whenever the snack exists, and
both store the given price and quantity verbatim — including non-positive
prices and negative quantities (only availability is recomputed). -/
theorem manage_snack_stores_unvalidated (db : DB) (n : String) (p : Rat)
    (q : Int) (iu : String) :
    ((manage_snack db Option.none n p q iu).1 = ManageResult.success ∧
     (⟨db.next_snack_id, n, p, q, iu, decide (q > 0)⟩ : Snack) ∈
       (manage_snack db Option.none n p q iu).2.snacks) ∧
    (∀ sid s0, findSnack db sid = some s0 →
      (manage_snack db (some sid) n p q iu).1 = ManageResult.success ∧
      findSnack (manage_snack db (some sid) n p q iu).2 sid =
        some { s0 with name := n, price := p, quantity := q,
                       image_url := iu,
                       is_available := decide (q > 0) }) := by
  refine ⟨⟨rfl, by simp [manage_snack]⟩, ?_⟩
  intro sid s0 h0
  refine ⟨by simp only [manage_snack, h0], ?_⟩
  simp only [manage_snack, h0]
  show (db.snacks.map fun s =>
      if s.id == sid then
        { s with name := n, price := p, quantity := q, image_url := iu,
                 is_available := decide (q > 0) }
      else s).find? (fun s => s.id == sid) =
    some { s0 with name := n, price := p, quantity := q, image_url := iu,
                   is_available := decide (q > 0) }
  have hgen := find?_map_ite (fun s : Snack => s.id == sid)
    (fun s => { s with name := n, price := p, quantity := q,
                       image_url := iu, is_available := decide (q > 0) })
    (fun x hx => by simpa using hx) db.snacks
  rw [show (db.snacks.find? fun s : Snack => s.id == sid) = some s0
    from h0] at hgen
  simpa using hgen

theorem manage_snack_stores_unvalidated_witness :
    findSnack (manage_snack initialDB (some 0) "X" (-2) (-7) "img").2 0 =
      some ⟨0, "X", -2, -7, "img", false⟩ :=
  ((manage_snack_stores_unvalidated initialDB "X" (-2) (-7) "img").2 0
    ⟨0, "Spicy Chips Pack", 20, 15,
      "https://via.placeholder.com/400x300/64561a/fcfcfc?text=Spicy+Chips",
      true⟩ (by decide)).2

/-- C6: deleting an existing snack fails with `hasPendingOrders` and
leaves the store untouched when some order referencing it is Pending, and
succeeds — removing exactly that snack row — when every order referencing
it is Completed (in particular when no order references it). -/
theorem delete_snack_pending_policy (db : DB) (sid : Nat) (s : Snack)
    (hs : findSnack db sid = some s) :
    ((∃ o ∈ db.orders, o.snack_id = sid ∧ o.status = "Pending") →
      delete_snack db sid = (DeleteResult.hasPendingOrders, db)) ∧
    ((∀ o ∈ db.orders, o.snack_id = sid → o.status = "Completed") →
      (delete_snack db sid).1 = DeleteResult.success ∧
      (delete_snack db sid).2.snacks =
        db.snacks.filter fun t => t.id != sid) := by
  constructor
  · rintro ⟨o, ho, ho1, ho2⟩
    have hfind : (db.orders.find? fun o =>
        o.snack_id == sid && o.status == "Pending").isSome = true := by
      rw [List.find?_isSome]
      exact ⟨o, ho, by simp [ho1, ho2]⟩
    simp only [delete_snack, hs]
    rw [if_pos hfind]
  · intro hall
    have hfind : (db.orders.find? fun o =>
        o.snack_id == sid && o.status == "Pending") = none := by
      rw [List.find?_eq_none]
      intro o ho
      by_cases hid : o.snack_id = sid
      · have hc := hall o ho hid
        simp [hc]
      · simp [hid]
    simp only [delete_snack, hs]
    rw [if_neg (by rw [hfind]; simp)]
    exact ⟨rfl, rfl⟩

theorem delete_snack_pending_policy_witness :
    delete_snack dbPending 1 = (DeleteResult.hasPendingOrders, dbPending) ∧
    (delete_snack dbCompleted 1).1 = DeleteResult.success :=
  ⟨(delete_snack_pending_policy dbPending 1 ⟨1, "Chips", 20, 5, "img", true⟩
      (by decide)).1 (by decide),
   ((delete_snack_pending_policy dbCompleted 1
      ⟨1, "Chips", 20, 5, "img", true⟩ (by decide)).2 (by decide)).1⟩

/-- The `register` route touches only the users table, so pending-order referential
integrity is preserved. -/
theorem refIntPending_register (db : DB) (u p r : String)
    (h : refIntPending db) : refIntPending (register db u p r).2 := by
  simp only [register]
  by_cases hd : (List.find? (fun x => x.username == u ++ "-" ++ r)
      db.users).isSome = true
  · rw [if_pos hd]; exact h
  · rw [if_neg hd]; exact h

/-- The `order` route adds a pending order only for a snack that stays (rewritten)
in the table, so pending-order referential integrity is preserved. -/
theorem refIntPending_order (db : DB) (sid : Nat) (bn rn : String)
    (q : Int) (c : Bool) (h : refIntPending db) :
    refIntPending (order db sid bn rn q c).2 := by
  cases hfind : findSnack db sid with
  | none => simp only [order, hfind]; exact h
  | some snack =>
      simp only [order, hfind]
      by_cases hq : q ≤ 0 ∨ q > snack.quantity
      · rw [if_pos hq]; exact h
      · rw [if_neg hq]
        cases c with
        | false => rw [if_neg (by simp)]; exact h
        | true =>
            rw [if_pos rfl]
            intro o ho hp
            rcases List.mem_append.mp ho with ho | ho
            · rcases h o ho hp with ⟨t, ht, hts⟩
              refine ⟨_, List.mem_map_of_mem _ ht, ?_⟩
              by_cases hid : (t.id == snack.id) = true
              · have hteq : t.id = snack.id := beq_iff_eq.mp hid
                simp only [if_pos hid]
                simpa [← hteq] using hts
              · simp only [if_neg hid]
                exact hts
            · rcases List.mem_singleton.mp ho with rfl
              refine ⟨_, List.mem_map_of_mem _
                (findSnack_mem db sid snack hfind), ?_⟩
              simp

/-- The `complete_order` route only moves an order out of Pending and keeps the
snacks table, so pending-order referential integrity is preserved. -/
theorem refIntPending_complete (db : DB) (oid : Nat)
    (h : refIntPending db) : refIntPending (complete_order db oid).2 := by
  cases hfind : findOrder db oid with
  | none => simp only [complete_order, hfind]; exact h
  | some o0 =>
      simp only [complete_order, hfind]
      intro o ho hp
      rcases List.mem_map.mp ho with ⟨t, ht, rfl⟩
      by_cases hid : (t.id == oid) = true
      · rw [if_pos hid] at hp
        simp at hp
      · rw [if_neg hid] at hp ⊢
        exact h t ht hp

/-- The `manage_snack` route adds a snack or rewrites one in place (id unchanged),
so pending-order referential integrity is preserved. -/
theorem refIntPending_manage (db : DB) (msid : Option Nat) (n : String)
    (p : Rat) (q : Int) (iu : String) (h : refIntPending db) :
    refIntPending (manage_snack db msid n p q iu).2 := by
  cases msid with
  | none =>
      intro o ho hp
      rcases h o ho hp with ⟨s, hmem, hsid⟩
      exact ⟨s, List.mem_append_left _ hmem, hsid⟩
  | some sid =>
      cases hfind : findSnack db sid with
      | none => simp only [manage_snack, hfind]; exact h
      | some s0 =>
          simp only [manage_snack, hfind]
          intro o ho hp
          rcases h o ho hp with ⟨s, hmem, hsid⟩
          refine ⟨_, List.mem_map_of_mem _ hmem, ?_⟩
          by_cases hid : (s.id == sid) = true
          · simp only [if_pos hid]
            simpa using hsid
          · simp only [if_neg hid]
            exact hsid

/-- The `delete_snack` route removes a snack only when no pending order references
it, so pending-order referential integrity is preserved. -/
theorem refIntPending_delete (db : DB) (sid : Nat)
    (h : refIntPending db) : refIntPending (delete_snack db sid).2 := by
  cases hfind : findSnack db sid with
  | none => simp only [delete_snack, hfind]; exact h
  | some s0 =>
      simp only [delete_snack, hfind]
      by_cases hp : ((db.orders.find? fun o =>
          o.snack_id == sid && o.status == "Pending").isSome = true)
      · rw [if_pos hp]; exact h
      · rw [if_neg hp]
        intro o ho hpend
        rcases h o ho hpend with ⟨s, hmem, hsid⟩
        refine ⟨s, ?_, hsid⟩
        rw [List.mem_filter]
        refine ⟨hmem, ?_⟩
        have hnone : (db.orders.find? fun o =>
            o.snack_id == sid && o.status == "Pending") = none := by
          cases hcase : db.orders.find? fun o =>
              o.snack_id == sid && o.status == "Pending" with
          | none => rfl
          | some x => rw [hcase] at hp; simp at hp
        rw [List.find?_eq_none] at hnone
        have hno := hnone o ho
        have hne : o.snack_id ≠ sid := by
          intro heq
          exact hno (by simp [heq, hpend])
        have hne2 : s.id ≠ sid := by rw [hsid]; exact hne
        simpa [bne_iff_ne] using hne2

/-- C7 amended: in every state reachable through the public operations,
every *Pending* order's snack reference resolves to an existing snack;
Completed orders' references can be left dangling by `delete_snack`. -/
theorem reachable_pending_orders_resolvable (db : DB)
    (h : Reachable db) : refIntPending db := by
  induction h with
  | init => intro o ho hp; simp [emptyDB] at ho
  | seed => intro o ho hp; simp [initialDB] at ho
  | register db u p r _ ih => exact refIntPending_register db u p r ih
  | order db sid bn rn q c _ ih =>
      exact refIntPending_order db sid bn rn q c ih
  | complete db oid _ ih => exact refIntPending_complete db oid ih
  | manage db msid n p q iu _ ih =>
      exact refIntPending_manage db msid n p q iu ih
  | delete db sid _ ih => exact refIntPending_delete db sid ih

/-- C7 counterexample: the state `dbChain3` is reachable through the
public operations, yet its Completed order still references snack id 0,
which no longer exists — deleting a snack with only Completed orders
(src/app.py lines 254-259) leaves those orders' references dangling. -/
theorem completed_order_reference_dangles :
    Reachable dbChain3 ∧
    ¬ ∀ o ∈ dbChain3.orders, ∃ s ∈ dbChain3.snacks, s.id = o.snack_id := by
  constructor
  · exact Reachable.delete dbChain2 0 (Reachable.complete dbChain1 0
      (Reachable.order dbChain0 0 "alice-101" "101" 2 true
        (Reachable.manage emptyDB Option.none "Chips" 20 5 "img"
          Reachable.init)))
  · decide

theorem reachable_pending_orders_resolvable_witness :
    refIntPending dbChain1 :=
  reachable_pending_orders_resolvable dbChain1
    (Reachable.order dbChain0 0 "alice-101" "101" 2 true
      (Reachable.manage emptyDB Option.none "Chips" 20 5 "img"
        Reachable.init))

/-- C8: registration composes the identity `"<name>-<room_number>"`; if a
user with that identity already exists it fails with a duplicate-identity
error storing nothing, otherwise it stores exactly one new user with that
composed identity, role `"student"`, and the hashed password (a `Hash`
value produced by the hashing collaborator, never the raw string). -/
theorem register_composed_identity (db : DB) (n pw r : String) :
    ((findUser db (n ++ "-" ++ r)).isSome = true →
      register db n pw r = (RegisterResult.duplicateIdentity, db)) ∧
    ((findUser db (n ++ "-" ++ r)).isSome = false →
      (register db n pw r).1 = RegisterResult.success ∧
      (register db n pw r).2.users = db.users ++
        [⟨db.next_user_id, n ++ "-" ++ r, generate_password_hash pw,
          "student"⟩] ∧
      (register db n pw r).2.snacks = db.snacks ∧
      (register db n pw r).2.orders = db.orders) := by
  constructor
  · intro hd
    unfold findUser at hd
    simp only [register]
    rw [if_pos hd]
  · intro hd
    unfold findUser at hd
    simp only [register]
    rw [if_neg (by simp [hd])]
    exact ⟨rfl, rfl, rfl, rfl⟩

theorem register_composed_identity_witness :
    (register emptyDB "alice" "pw" "101").1 = RegisterResult.success ∧
    register dbAlice "alice" "pw2" "101" =
      (RegisterResult.duplicateIdentity, dbAlice) :=
  ⟨((register_composed_identity emptyDB "alice" "pw" "101").2
      (by decide)).1,
   (register_composed_identity dbAlice "alice" "pw2" "101").1 (by decide)⟩

/-- C9: login failure is uniform — an attempt with an unknown identity
and an attempt with a known identity but a wrong password produce the
same observable outcome (same flash message, same redirect), revealing
nothing about which case occurred. -/
theorem login_failure_uniform (db : DB) (u1 p1 u2 p2 : String)
    (usr : User) (h1 : findUser db u1 = none)
    (h2 : findUser db u2 = some usr)
    (h3 : check_password_hash usr.password_hash p2 = false) :
    login db u1 p1 = login db u2 p2 ∧
    login db u1 p1 = LoginResult.failure
      "Login failed. Check your username and password." "login" := by
  have e1 : login db u1 p1 = LoginResult.failure
      "Login failed. Check your username and password." "login" := by
    simp only [login, h1]
  have e2 : login db u2 p2 = LoginResult.failure
      "Login failed. Check your username and password." "login" := by
    simp only [login, h2, h3]
    rfl
  exact ⟨e1.trans e2.symm, e1⟩

theorem login_failure_uniform_witness :
    login initialDB "nobody" "x" = login initialDB "admin" "wrong" :=
  (login_failure_uniform initialDB "nobody" "x" "admin" "wrong"
    ⟨0, "admin", generate_password_hash "cvr_admin123", "admin"⟩
    (by decide) (by decide) (by decide)).1

/-- C10 (frame): a successful order placement rewrites only the ordered
snack's `quantity` and `is_available` — the snack keeps its id, name,
price and image reference; every other snack row is untouched in both
directions; the orders table is the old one plus the single new order
(every pre-existing order unchanged); the users table is untouched. -/
theorem order_frame (db : DB) (sid : Nat) (bn rn : String) (q : Int)
    (s : Snack) (hs : findSnack db sid = some s) (hq0 : 0 < q)
    (hqs : q ≤ s.quantity) :
    (findSnack (order db sid bn rn q true).2 sid =
      some { s with quantity := s.quantity - q,
                    is_available := if s.quantity - q == 0 then false
                                    else s.is_available }) ∧
    (∀ t ∈ db.snacks, t.id ≠ sid →
      t ∈ (order db sid bn rn q true).2.snacks) ∧
    (∀ t ∈ (order db sid bn rn q true).2.snacks, t.id ≠ sid →
      t ∈ db.snacks) ∧
    (order db sid bn rn q true).2.orders =
      db.orders ++ [⟨db.next_order_id, sid, bn, rn, q, "Pending"⟩] ∧
    (order db sid bn rn q true).2.users = db.users := by
  have he := order_success_eq db sid bn rn q s hs hq0 hqs
  have hid := findSnack_id db sid s hs
  refine ⟨?_, ?_, ?_, by rw [he], by rw [he]⟩
  · rw [he]
    show (db.snacks.map fun t => if t.id == sid then orderedSnack s q
        else t).find? (fun t => t.id == sid) = some (orderedSnack s q)
    exact find?_map_const _ _ (by simp [orderedSnack, hid]) db.snacks s hs
  · intro t ht hne
    rw [he]
    exact mem_map_ite_of_ne _ _ db.snacks t ht (by simp [hne])
  · intro t ht hne
    rw [he] at ht
    rcases mem_of_mem_map_ite _ _ _ _ ht with ⟨y, hy, hxy⟩
    by_cases hyid : (y.id == sid) = true
    · rw [if_pos hyid] at hxy
      exfalso
      apply hne
      rw [hxy]
      simpa [orderedSnack] using hid
    · rw [if_neg hyid] at hxy
      rw [hxy]
      exact hy

theorem order_frame_witness :
    (order initialDB 0 "alice-101" "101" 5 true).2.users =
      initialDB.users :=
  (order_frame initialDB 0 "alice-101" "101" 5
    ⟨0, "Spicy Chips Pack", 20, 15,
      "https://via.placeholder.com/400x300/64561a/fcfcfc?text=Spicy+Chips",
      true⟩ (by decide) (by decide) (by decide)).2.2.2.2
